import Mathlib

/-!
Verification of the `kite login` credential-bootstrap flow
(`cmd/kite/login/cmd.go`) against its natural-language specification.

The Go code is shallowly embedded as pure Lean functions.  External
collaborators (`config.Load`/`config.Save`, `client.Connect`,
`GetCurrentUser`, `teams.SelectTeam`, standard input) are modelled as
predetermined behaviours threaded through an explicit `World` state, and
every observable action (persisted write, interactive prompt, remote call,
printed success line, team-selector invocation) is recorded in an ordered
event trace.
-/

namespace Kite

/-! ### The embedded program -/

/-- The persisted configuration record (`config.Config`): `ApiKey`,
`AccessToken`, `TeamID`, `Team`.  The empty string means "unset". -/
structure Config where
  apiKey      : String
  accessToken : String
  teamID      : String
  team        : String
deriving DecidableEq

/-- Go `error` values as they occur in this flow: either a
`pagerduty.APIError` (carrying the HTTP status code and the remote detail
text) or a plain error created by `fmt.Errorf` or the runtime, carrying
just a message.  `errors.As(err, &apiError)` corresponds to matching the
`apiError` constructor. -/
inductive GoError where
  | apiError (statusCode : Nat) (detail : String)
  | errorf (msg : String)
deriving DecidableEq

/-- The message text of a Go error. -/
def GoError.message : GoError → String
  | .apiError _ detail => detail
  | .errorf msg => msg

/-- The identity returned by `GetCurrentUser` (`pagerduty.User`, of which
only `Name` is used). -/
structure User where
  name : String
deriving DecidableEq

/-- The PagerDuty client handle: its one observable behaviour here is the
predetermined outcome of the single `GetCurrentUser` call. -/
structure PagerDutyClient where
  getCurrentUser : Except GoError User

/-- The package-level flag variables `loginArgs.apiKey` /
`loginArgs.accessToken` ("" when the flag was not passed). -/
structure LoginArgs where
  apiKey      : String
  accessToken : String
deriving DecidableEq

/-- Observable actions of one run, in execution order. -/
inductive Event where
  | save (cfg : Config)
  | promptKey
  | promptToken
  | connect
  | loginCall
  | printSuccess (user : String)
  | selectTeamCall
deriving DecidableEq

/-- External world threaded through the run: the pending standard-input
reads (each `bufio` read yields the data string together with an optional
error, exactly as Go's `ReadString` does) and the pending outcomes of
successive `config.Save` calls (an exhausted list means every further
save succeeds). -/
structure World where
  stdin : List (String × Option GoError)
  saves : List (Option GoError)
deriving DecidableEq

/-- Predetermined outcomes of the external collaborators:
`config.Load`, `client.NewClient().Connect()` and `teams.SelectTeam`. -/
structure Behavior where
  loadResult    : Except GoError Config
  connectResult : Except GoError PagerDutyClient
  selectResult  : Except GoError (String × String)

/-- `reader.ReadString('\n')`: pop the next read outcome; an exhausted
stream behaves like an immediate end-of-file error. -/
def readString (w : World) : (String × Option GoError) × World :=
  match w.stdin with
  | [] => (("", some (GoError.errorf "EOF")), w)
  | p :: rest => (p, { w with stdin := rest })

/-- `config.Save(cfg)`: pop the next predetermined save outcome
(`none` = success). -/
def doSave (w : World) : Option GoError × World :=
  match w.saves with
  | [] => (none, w)
  | r :: rest => (r, { w with saves := rest })

/-- `strings.TrimSuffix(s, "\n")`: since the suffix is the single
character '\n', this removes the last character when it is a newline
(written over the character list so that it reduces definitionally). -/
def trimNewline (s : String) : String :=
  if s.data.getLast? = some '\n' then String.mk s.data.dropLast else s

/-- `generateNewKey` (lines 163-179): prompt, read one line with
`ReadString('\n')` and store it in `cfg.ApiKey` verbatim (no trimming,
no save).  Returns the mutated record and the read error, if any. -/
def generateNewKey (cfg : Config) (w : World) :
    (Config × Option GoError) × World × List Event :=
  let r := readString w
  (({ cfg with apiKey := r.1.1 }, r.1.2), r.2, [Event.promptKey])

/-- `generateNewAccessToken` (lines 182-199): prompt, read one line and
store it in `cfg.AccessToken` with a trailing newline trimmed
(`strings.TrimSuffix`).  No save here either. -/
def generateNewAccessToken (cfg : Config) (w : World) :
    (Config × Option GoError) × World × List Event :=
  let r := readString w
  (({ cfg with accessToken := trimNewline r.1.1 }, r.1.2), r.2, [Event.promptToken])

/-- Lines 82-92 of `loginHandler`: if the `--api-key` flag value is
non-empty, overwrite `cfg.ApiKey` with it and persist immediately. -/
def overrideStep (loginArgs : LoginArgs) (cfg : Config) (w : World) :
    Except GoError Config × World × List Event :=
  if loginArgs.apiKey ≠ "" then
    let cfg2 := { cfg with apiKey := loginArgs.apiKey }
    let r := doSave w
    match r.1 with
    | some e => (Except.error e, r.2, [Event.save cfg2])
    | none => (Except.ok cfg2, r.2, [Event.save cfg2])
  else (Except.ok cfg, w, [])

/-- Lines 94-103 of `loginHandler`: if `len(cfg.ApiKey) == 0`, prompt for
a new key via `generateNewKey`; note that this branch performs no save. -/
def keyStep (cfg : Config) (w : World) :
    Except GoError Config × World × List Event :=
  if cfg.apiKey.length = 0 then
    let r := generateNewKey cfg w
    match r.1.2 with
    | some e => (Except.error e, r.2.1, r.2.2)
    | none => (Except.ok r.1.1, r.2.1, r.2.2)
  else (Except.ok cfg, w, [])

/-- Lines 106-121 of `loginHandler`: if `len(cfg.AccessToken) == 0`,
prompt for a token via `generateNewAccessToken` and then persist the
whole record. -/
def tokenStep (cfg : Config) (w : World) :
    Except GoError Config × World × List Event :=
  if cfg.accessToken.length = 0 then
    let r := generateNewAccessToken cfg w
    match r.1.2 with
    | some e => (Except.error e, r.2.1, r.2.2)
    | none =>
      let r2 := doSave r.2.1
      match r2.1 with
      | some e => (Except.error e, r2.2, r.2.2 ++ [Event.save r.1.1])
      | none => (Except.ok r.1.1, r2.2, r.2.2 ++ [Event.save r.1.1])
  else (Except.ok cfg, w, [])

/-- The Credential Acquirer stage of `loginHandler` (lines 82-121): the
`--api-key` override step, then the key prompt, then the token prompt. -/
def credentialStage (loginArgs : LoginArgs) (cfg : Config) (w : World) :
    Except GoError Config × World × List Event :=
  match overrideStep loginArgs cfg w with
  | (Except.error e, w1, evs1) => (Except.error e, w1, evs1)
  | (Except.ok cfg1, w1, evs1) =>
    match keyStep cfg1 w1 with
    | (Except.error e, w2, evs2) => (Except.error e, w2, evs1 ++ evs2)
    | (Except.ok cfg2, w2, evs2) =>
      match tokenStep cfg2 w2 with
      | (Except.error e, w3, evs3) => (Except.error e, w3, evs1 ++ evs2 ++ evs3)
      | (Except.ok cfg3, w3, evs3) => (Except.ok cfg3, w3, evs1 ++ evs2 ++ evs3)

/-- `Login` (lines 204-221): call `GetCurrentUser`; on success return the
user's name; if the error is a `pagerduty.APIError` (this is what
`errors.As(err, &apiError)` tests - the status code is NOT inspected),
replace it by `fmt.Errorf("login failed\n%v Unauthorized", apiError.StatusCode)`;
any other error is returned unchanged.  Returned as (name, error) like Go. -/
def Login (apiKey : String) (client : PagerDutyClient) : String × Option GoError :=
  match client.getCurrentUser with
  | Except.error err =>
    match err with
    | GoError.apiError code _ =>
      ("", some (GoError.errorf ("login failed\n" ++ toString code ++ " Unauthorized")))
    | GoError.errorf _ => ("", some err)
  | Except.ok user => (user.name, none)

/-- Lines 70-79 of `loginHandler` (the Config Loader): on any
`config.Load` error substitute a fresh zero-value record. -/
def loadedConfig : Except GoError Config → Config
  | Except.error _ => { apiKey := "", accessToken := "", teamID := "", team := "" }
  | Except.ok c => c

/-- Lines 141-150 of `loginHandler` (the Team Resolver): if
`cfg.TeamID == ""`, call `teams.SelectTeam` and store the returned pair;
otherwise do nothing. -/
def teamResolveStep (beh : Behavior) (cfg : Config) (w : World) :
    Except GoError Config × World × List Event :=
  if cfg.teamID = "" then
    match beh.selectResult with
    | Except.error e => (Except.error e, w, [Event.selectTeamCall])
    | Except.ok (tid, name) =>
      (Except.ok { cfg with teamID := tid, team := name }, w, [Event.selectTeamCall])
  else (Except.ok cfg, w, [])

/-- `loginHandler` (lines 65-160): load/merge the config, run the
credential stage, connect, verify the identity with `Login`, print the
success line, resolve the team, and unconditionally save once more at the
end.  Returns the final error (`none` = success), the final world, and
the ordered event trace. -/
def loginHandler (loginArgs : LoginArgs) (beh : Behavior) (w : World) :
    Option GoError × World × List Event :=
  let cfg := loadedConfig beh.loadResult
  match credentialStage loginArgs cfg w with
  | (Except.error e, w1, evs1) => (some e, w1, evs1)
  | (Except.ok cfg1, w1, evs1) =>
    match beh.connectResult with
    | Except.error e => (some e, w1, evs1 ++ [Event.connect])
    | Except.ok pdClient =>
      let lr := Login cfg1.apiKey pdClient
      match lr.2 with
      | some e => (some e, w1, evs1 ++ [Event.connect, Event.loginCall])
      | none =>
        let evs2 := evs1 ++ [Event.connect, Event.loginCall, Event.printSuccess lr.1]
        match teamResolveStep beh cfg1 w1 with
        | (Except.error e, w2, evs3) => (some e, w2, evs2 ++ evs3)
        | (Except.ok cfg2, w2, evs3) =>
          let r := doSave w2
          match r.1 with
          | some e => (some e, r.2, evs2 ++ evs3 ++ [Event.save cfg2])
          | none => (none, r.2, evs2 ++ evs3 ++ [Event.save cfg2])

/-- One full run of the bootstrapper from a given stdin stream and save
outcome stream. -/
def runLogin (loginArgs : LoginArgs) (beh : Behavior)
    (stdin : List (String × Option GoError)) (saves : List (Option GoError)) :
    Option GoError × World × List Event :=
  loginHandler loginArgs beh { stdin := stdin, saves := saves }

/-- The records passed to `config.Save`, in order. -/
def savedConfigs (evs : List Event) : List Config :=
  evs.filterMap (fun e => match e with | Event.save c => some c | _ => none)

/-- Whether an event is one of the two interactive credential prompts. -/
def Event.isPrompt : Event → Bool
  | Event.promptKey => true
  | Event.promptToken => true
  | _ => false

/-- Whether an event is a `teams.SelectTeam` invocation. -/
def Event.isSelect : Event → Bool
  | Event.selectTeamCall => true
  | _ => false

/-- Whether an event is a `config.Save` call. -/
def Event.isSave : Event → Bool
  | Event.save _ => true
  | _ => false

/-- Whether an event is the printed success line. -/
def Event.isPrint : Event → Bool
  | Event.printSuccess _ => true
  | _ => false

/-- Number of interactive prompts in a trace. -/
def promptCount (evs : List Event) : Nat := (evs.filter Event.isPrompt).length

/-- Number of `teams.SelectTeam` calls in a trace. -/
def selectCount (evs : List Event) : Nat := (evs.filter Event.isSelect).length

/-- Number of `config.Save` calls in a trace. -/
def saveCount (evs : List Event) : Nat := (evs.filter Event.isSave).length

/-- Character-list version of "starts with". -/
def leadsWith : List Char → List Char → Bool
  | [], _ => true
  | _ :: _, [] => false
  | a :: as, b :: bs => (a == b) && leadsWith as bs

/-- Character-list version of "occurs as a contiguous substring". -/
def occursIn (pat : List Char) : List Char → Bool
  | [] => leadsWith pat []
  | c :: cs => leadsWith pat (c :: cs) || occursIn pat cs

/-- `strings.Contains`-style substring test. -/
def strContains (s pat : String) : Bool := occursIn pat.data s.data

/-- Well-formedness of the modelled input stream, guaranteed by
`bufio.Reader.ReadString('\n')`: a successful read always returns the
delimiter, so the returned data is never the empty string. -/
def GoodStdin (l : List (String × Option GoError)) : Prop :=
  ∀ p ∈ l, p.2 = none → p.1 ≠ ""

/-- The teamID/teamName pair property: both set or both unset. -/
def teamPaired (c : Config) : Prop := c.teamID = "" ↔ c.team = ""

/-- Collaborator behaviour for Scenario A: no stored config, identity
lookup succeeds, team selection succeeds. -/
def scenarioABeh : Behavior :=
  { loadResult := Except.error (GoError.errorf "missing config"),
    connectResult := Except.ok { getCurrentUser := Except.ok { name := "Jane Doe" } },
    selectResult := Except.ok ("T1", "Team One") }

/-- Scenario A run: empty config, no override flags, stdin yields the
line "abc123\n" and then the line "ghtoken\n", every save succeeds. -/
def scenarioARun : Option GoError × World × List Event :=
  runLogin { apiKey := "", accessToken := "" } scenarioABeh
    [("abc123\n", none), ("ghtoken\n", none)] []

/-- Collaborator behaviour whose stored record has teamID set but teamName empty. -/
def pairBreakBeh : Behavior :=
  { loadResult := Except.ok { apiKey := "k", accessToken := "t", teamID := "x", team := "" },
    connectResult := Except.ok { getCurrentUser := Except.ok { name := "u" } },
    selectResult := Except.ok ("a", "b") }

/-- Run starting from a record violating the teamID/teamName pair property. -/
def pairBreakRun : Option GoError × World × List Event :=
  runLogin { apiKey := "", accessToken := "" } pairBreakBeh [] []

/-- Collaborator behaviour with a fully populated stored record. -/
def overrideBeh : Behavior :=
  { loadResult := Except.ok { apiKey := "old", accessToken := "t", teamID := "x", team := "y" },
    connectResult := Except.ok { getCurrentUser := Except.ok { name := "u" } },
    selectResult := Except.ok ("a", "b") }

/-- Run in which the success line is printed and then the team selector
fails, so the overall bootstrap fails after the success line. -/
def afterPrintFailRun : Option GoError × World × List Event :=
  runLogin { apiKey := "", accessToken := "" }
    { loadResult := Except.ok { apiKey := "k", accessToken := "t", teamID := "", team := "" },
      connectResult := Except.ok { getCurrentUser := Except.ok { name := "Jane" } },
      selectResult := Except.error (GoError.errorf "selector failed") } [] []

/-! ### Helper lemmas about the individual steps -/

/-- A non-empty string has non-zero length (needed because the Go code tests `len(...) == 0`). -/
theorem length_ne_zero {s : String} (h : s ≠ "") : s.length ≠ 0 := by
  cases s with
  | mk l =>
    cases l with
    | nil => exact absurd rfl h
    | cons c cs => simp

/-- With no --api-key flag the override step does nothing. -/
theorem overrideStep_skip (args : LoginArgs) (cfg : Config) (w : World)
    (h : args.apiKey = "") : overrideStep args cfg w = (Except.ok cfg, w, []) := by
  simp [overrideStep, h]

/-- With a key already present the key prompt is skipped. -/
theorem keyStep_skip (cfg : Config) (w : World) (h : cfg.apiKey ≠ "") :
    keyStep cfg w = (Except.ok cfg, w, []) := by
  simp [keyStep, length_ne_zero h]

/-- With a token already present the token prompt is skipped. -/
theorem tokenStep_skip (cfg : Config) (w : World) (h : cfg.accessToken ≠ "") :
    tokenStep cfg w = (Except.ok cfg, w, []) := by
  simp [tokenStep, length_ne_zero h]

/-- With both credentials present and no override, the Credential Acquirer is a no-op. -/
theorem credentialStage_skip (args : LoginArgs) (cfg : Config) (w : World)
    (h1 : args.apiKey = "") (h2 : cfg.apiKey ≠ "") (h3 : cfg.accessToken ≠ "") :
    credentialStage args cfg w = (Except.ok cfg, w, []) := by
  simp [credentialStage, overrideStep_skip args cfg w h1, keyStep_skip cfg w h2,
    tokenStep_skip cfg w h3]

/-- With a team already selected the Team Resolver is a no-op. -/
theorem teamResolveStep_skip (beh : Behavior) (cfg : Config) (w : World)
    (h : cfg.teamID ≠ "") : teamResolveStep beh cfg w = (Except.ok cfg, w, []) := by
  simp [teamResolveStep, h]

/-- A successful override step only changes apiKey and never touches stdin. -/
theorem overrideStep_ok {args : LoginArgs} {cfg : Config} {w : World} {c' : Config}
    (h : (overrideStep args cfg w).1 = Except.ok c') :
    c'.accessToken = cfg.accessToken ∧ c'.teamID = cfg.teamID ∧ c'.team = cfg.team ∧
    (overrideStep args cfg w).2.1.stdin = w.stdin := by
  unfold overrideStep doSave at *
  split at h
  · split at h
    · simp_all
      subst h
      simp
    · rename_i r rest heq
      cases r <;> simp_all
      subst h
      simp
  · simp_all

/-- A successful key step leaves accessToken and the team fields unchanged. -/
theorem keyStep_ok_team {cfg : Config} {w : World} {c' : Config}
    (h : (keyStep cfg w).1 = Except.ok c') :
    c'.accessToken = cfg.accessToken ∧ c'.teamID = cfg.teamID ∧ c'.team = cfg.team := by
  unfold keyStep generateNewKey readString at *
  split at h
  · split at h
    · simp_all
    · rename_i p rest heq
      cases hp : p.2 <;> simp_all
      subst h
      simp
  · simp_all

/-- Under the bufio read guarantee, a successful key step leaves a non-empty apiKey. -/
theorem keyStep_ok_key {cfg : Config} {w : World} {c' : Config}
    (hg : GoodStdin w.stdin)
    (h : (keyStep cfg w).1 = Except.ok c') :
    c'.apiKey ≠ "" := by
  unfold keyStep generateNewKey readString at *
  split at h
  · rename_i hlen
    split at h
    · simp_all
    · rename_i p rest heq
      cases hp : p.2 <;> simp_all
      have hne := hg p (List.mem_cons_self p rest) hp
      subst h
      simpa using hne
  · rename_i hlen
    simp_all
    intro hc
    exact hlen (by simp [hc])

/-- A successful token step leaves apiKey and the team fields unchanged. -/
theorem tokenStep_ok {cfg : Config} {w : World} {c' : Config}
    (h : (tokenStep cfg w).1 = Except.ok c') :
    c'.apiKey = cfg.apiKey ∧ c'.teamID = cfg.teamID ∧ c'.team = cfg.team := by
  unfold tokenStep generateNewAccessToken readString doSave at h
  split at h
  · cases hst : w.stdin with
    | nil => rw [hst] at h; simp_all
    | cons p rest =>
      rw [hst] at h
      dsimp only at h
      cases hp : p.2 with
      | some e => rw [hp] at h; simp_all
      | none =>
        rw [hp] at h
        dsimp only at h
        cases hsv : w.saves with
        | nil =>
          rw [hsv] at h
          dsimp only at h
          simp only [Except.ok.injEq] at h
          simp [← h]
        | cons r rest2 =>
          rw [hsv] at h
          dsimp only at h
          cases r with
          | some e => simp_all
          | none =>
            simp only [Except.ok.injEq] at h
            simp [← h]
  · simp_all

/-- The only event of the override step is the save of the overridden record. -/
theorem overrideStep_events (args : LoginArgs) (cfg : Config) (w : World) :
    ∀ e ∈ (overrideStep args cfg w).2.2,
      e = Event.save { cfg with apiKey := args.apiKey } := by
  intro e he
  unfold overrideStep doSave at he
  split at he
  · split at he
    · simp_all
    · rename_i r rest heq
      cases r <;> simp_all
  · simp_all

/-- The only event of the key step is the key prompt (note: no save). -/
theorem keyStep_events (cfg : Config) (w : World) :
    ∀ e ∈ (keyStep cfg w).2.2, e = Event.promptKey := by
  intro e he
  unfold keyStep generateNewKey readString at he
  split at he
  · split at he
    · simp_all
    · rename_i p rest heq
      dsimp only at he
      cases hp : p.2 <;> rw [hp] at he <;> simp_all
  · simp_all

/-- The token step events: the token prompt and a save preserving apiKey and the team fields. -/
theorem tokenStep_events (cfg : Config) (w : World) :
    ∀ e ∈ (tokenStep cfg w).2.2,
      e = Event.promptToken ∨
      ∃ cf, e = Event.save cf ∧ cf.apiKey = cfg.apiKey ∧
        cf.teamID = cfg.teamID ∧ cf.team = cfg.team := by
  intro e he
  unfold tokenStep generateNewAccessToken readString doSave at he
  split at he
  · split at he
    · simp_all
    · rename_i p rest heq
      dsimp only at he
      cases hp : p.2 with
      | some e2 => rw [hp] at he; simp_all
      | none =>
        rw [hp] at he
        dsimp only at he
        cases hsv : w.saves with
        | nil =>
          rw [hsv] at he
          dsimp only at he
          rcases List.mem_append.1 he with h2 | h2
          · simp_all
          · exact Or.inr ⟨{ cfg with accessToken := trimNewline p.1 },
              by simpa using h2, rfl, rfl, rfl⟩
        | cons r rest2 =>
          rw [hsv] at he
          dsimp only at he
          cases r with
          | some e2 =>
            rcases List.mem_append.1 he with h2 | h2
            · simp_all
            · exact Or.inr ⟨{ cfg with accessToken := trimNewline p.1 },
                by simpa using h2, rfl, rfl, rfl⟩
          | none =>
            rcases List.mem_append.1 he with h2 | h2
            · simp_all
            · exact Or.inr ⟨{ cfg with accessToken := trimNewline p.1 },
                by simpa using h2, rfl, rfl, rfl⟩
  · simp_all

/-- The only event the Team Resolver can emit is the selector call. -/
theorem teamResolveStep_events (beh : Behavior) (cfg : Config) (w : World) :
    ∀ e ∈ (teamResolveStep beh cfg w).2.2, e = Event.selectTeamCall := by
  intro e he
  unfold teamResolveStep at he
  split at he
  · split at he <;> simp_all
  · simp_all

/-- With a non-empty override the override step emits exactly one save event. -/
theorem overrideStep_trace (args : LoginArgs) (cfg : Config) (w : World)
    (ha : args.apiKey ≠ "") :
    (overrideStep args cfg w).2.2 = [Event.save { cfg with apiKey := args.apiKey }] := by
  cases hsv : w.saves with
  | nil => simp [overrideStep, doSave, ha, hsv]
  | cons r rest => cases r <;> simp [overrideStep, doSave, ha, hsv]

/-- A successful credential stage leaves the team fields unchanged. -/
theorem credentialStage_ok {args : LoginArgs} {cfg : Config} {w : World} {c' : Config}
    (h : (credentialStage args cfg w).1 = Except.ok c') :
    c'.teamID = cfg.teamID ∧ c'.team = cfg.team := by
  unfold credentialStage at h
  split at h
  · simp_all
  · rename_i cfg1 w1 evs1 heq1
    split at h
    · simp_all
    · rename_i cfg2 w2 evs2 heq2
      split at h
      · simp_all
      · rename_i cfg3 w3 evs3 heq3
        simp only [Except.ok.injEq] at h
        subst h
        have h1 := overrideStep_ok (show (overrideStep args cfg w).1 = Except.ok cfg1 by rw [heq1])
        have h2 := keyStep_ok_team (show (keyStep cfg1 w1).1 = Except.ok cfg2 by rw [heq2])
        have h3 := tokenStep_ok (show (tokenStep cfg2 w2).1 = Except.ok cfg3 by rw [heq3])
        exact ⟨by rw [h3.2.1, h2.2.1, h1.2.1], by rw [h3.2.2, h2.2.2, h1.2.2.1]⟩

/-- A successful credential stage leaves a non-empty apiKey (bufio guarantee). -/
theorem credentialStage_ok_key {args : LoginArgs} {cfg : Config} {w : World} {c' : Config}
    (hg : GoodStdin w.stdin)
    (h : (credentialStage args cfg w).1 = Except.ok c') :
    c'.apiKey ≠ "" := by
  unfold credentialStage at h
  split at h
  · simp_all
  · rename_i cfg1 w1 evs1 heq1
    split at h
    · simp_all
    · rename_i cfg2 w2 evs2 heq2
      split at h
      · simp_all
      · rename_i cfg3 w3 evs3 heq3
        simp only [Except.ok.injEq] at h
        subst h
        have h1 := overrideStep_ok (show (overrideStep args cfg w).1 = Except.ok cfg1 by rw [heq1])
        have hst : w1.stdin = w.stdin := by
          have h4 := h1.2.2.2
          rw [heq1] at h4
          exact h4
        have hg1 : GoodStdin w1.stdin := by rw [hst]; exact hg
        have h2 := keyStep_ok_key hg1 (show (keyStep cfg1 w1).1 = Except.ok cfg2 by rw [heq2])
        have h3 := tokenStep_ok (show (tokenStep cfg2 w2).1 = Except.ok cfg3 by rw [heq3])
        rw [h3.1]
        exact h2

/-- Every event of the credential stage is a prompt or a save that preserves the team fields; it never selects a team or prints. -/
theorem credentialStage_events (args : LoginArgs) (cfg : Config) (w : World) :
    ∀ e ∈ (credentialStage args cfg w).2.2,
      Event.isSelect e = false ∧ Event.isPrint e = false ∧
      ∀ cf, e = Event.save cf → cf.teamID = cfg.teamID ∧ cf.team = cfg.team := by
  intro e he
  unfold credentialStage at he
  split at he
  · rename_i e1 w1 evs1 heq1
    have h2 := overrideStep_events args cfg w e (by rw [heq1]; exact he)
    subst h2
    exact ⟨rfl, rfl, fun cf hcf => by cases hcf; exact ⟨rfl, rfl⟩⟩
  · rename_i cfg1 w1 evs1 heq1
    have h1 := overrideStep_ok (show (overrideStep args cfg w).1 = Except.ok cfg1 by rw [heq1])
    split at he
    · rename_i e2 w2 evs2 heq2
      rcases List.mem_append.1 he with hm | hm
      · have h2 := overrideStep_events args cfg w e (by rw [heq1]; exact hm)
        subst h2
        exact ⟨rfl, rfl, fun cf hcf => by cases hcf; exact ⟨rfl, rfl⟩⟩
      · have h2 := keyStep_events cfg1 w1 e (by rw [heq2]; exact hm)
        subst h2
        exact ⟨rfl, rfl, fun cf hcf => by cases hcf⟩
    · rename_i cfg2 w2 evs2 heq2
      have h2 := keyStep_ok_team (show (keyStep cfg1 w1).1 = Except.ok cfg2 by rw [heq2])
      have hmem3 : e ∈ evs1 ++ evs2 ++ (tokenStep cfg2 w2).2.2 ∨ False := by
        split at he <;> rename_i cfg3 w3 evs3 heq3 <;>
          simp only at he <;> exact Or.inl (by rw [heq3]; exact he)
      rcases hmem3 with hm | hm
      · rcases List.mem_append.1 hm with hm2 | hm2
        · rcases List.mem_append.1 hm2 with hm3 | hm3
          · have h3 := overrideStep_events args cfg w e
              (by rw [heq1]; exact hm3)
            subst h3
            exact ⟨rfl, rfl, fun cf hcf => by cases hcf; exact ⟨rfl, rfl⟩⟩
          · have h3 := keyStep_events cfg1 w1 e (by rw [heq2]; exact hm3)
            subst h3
            exact ⟨rfl, rfl, fun cf hcf => by cases hcf⟩
        · have h3 := tokenStep_events cfg2 w2 e hm2
          rcases h3 with h3 | ⟨cf, hcf, hk, ht1, ht2⟩
          · subst h3
            exact ⟨rfl, rfl, fun cf hcf => by cases hcf⟩
          · subst hcf
            refine ⟨rfl, rfl, fun cf2 hcf2 => ?_⟩
            cases hcf2
            constructor
            · rw [ht1, h2.2.1, h1.2.1]
            · rw [ht2, h2.2.2, h1.2.2.1]
      · exact absurd hm (by simp)

/-- With a non-empty override the trace of the credential stage starts with the override save. -/
theorem credentialStage_head (args : LoginArgs) (cfg : Config) (w : World)
    (ha : args.apiKey ≠ "") :
    ∃ tl, (credentialStage args cfg w).2.2 =
      Event.save { cfg with apiKey := args.apiKey } :: tl := by
  unfold credentialStage
  split
  · rename_i e1 w1 evs1 heq1
    have ht := overrideStep_trace args cfg w ha
    rw [heq1] at ht
    simp only at ht
    exact ⟨[], by simp [ht]⟩
  · rename_i cfg1 w1 evs1 heq1
    have ht := overrideStep_trace args cfg w ha
    rw [heq1] at ht
    simp only at ht
    split
    · rename_i e2 w2 evs2 heq2
      exact ⟨evs2, by simp [ht]⟩
    · rename_i cfg2 w2 evs2 heq2
      split
      · rename_i e3 w3 evs3 heq3
        exact ⟨evs2 ++ evs3, by simp [ht]⟩
      · rename_i cfg3 w3 evs3 heq3
        exact ⟨evs2 ++ evs3, by simp [ht]⟩

/-- The credential stage never calls the team selector. -/
theorem credentialStage_no_select (args : LoginArgs) (cfg : Config) (w : World) :
    Event.selectTeamCall ∉ (credentialStage args cfg w).2.2 := by
  intro hmem
  have h2 := (credentialStage_events args cfg w _ hmem).1
  simp [Event.isSelect] at h2

/-- The credential stage never prints the success line. -/
theorem credentialStage_no_print (args : LoginArgs) (cfg : Config) (w : World) (u : String) :
    Event.printSuccess u ∉ (credentialStage args cfg w).2.2 := by
  intro hmem
  have h2 := (credentialStage_events args cfg w _ hmem).2.1
  simp [Event.isPrint] at h2

/-- Every record saved by the credential stage keeps the incoming team fields. -/
theorem credentialStage_saves_team (args : LoginArgs) (cfg : Config) (w : World) :
    ∀ c ∈ savedConfigs (credentialStage args cfg w).2.2,
      c.teamID = cfg.teamID ∧ c.team = cfg.team := by
  intro c hc
  rcases List.mem_filterMap.1 hc with ⟨e, he, hfe⟩
  have h3 := (credentialStage_events args cfg w e he).2.2
  cases e <;> simp at hfe
  exact hfe ▸ h3 _ rfl

/-- `savedConfigs` distributes over trace concatenation. -/
theorem savedConfigs_append (a b : List Event) :
    savedConfigs (a ++ b) = savedConfigs a ++ savedConfigs b := by
  simp [savedConfigs]

theorem savedConfigs_nil : savedConfigs [] = [] := rfl

theorem savedConfigs_cons_save (c : Config) (l : List Event) :
    savedConfigs (Event.save c :: l) = c :: savedConfigs l := rfl

theorem savedConfigs_cons_connect (l : List Event) :
    savedConfigs (Event.connect :: l) = savedConfigs l := rfl

theorem savedConfigs_cons_loginCall (l : List Event) :
    savedConfigs (Event.loginCall :: l) = savedConfigs l := rfl

theorem savedConfigs_cons_printSuccess (u : String) (l : List Event) :
    savedConfigs (Event.printSuccess u :: l) = savedConfigs l := rfl

theorem savedConfigs_cons_promptKey (l : List Event) :
    savedConfigs (Event.promptKey :: l) = savedConfigs l := rfl

theorem savedConfigs_cons_promptToken (l : List Event) :
    savedConfigs (Event.promptToken :: l) = savedConfigs l := rfl

theorem savedConfigs_cons_selectTeamCall (l : List Event) :
    savedConfigs (Event.selectTeamCall :: l) = savedConfigs l := rfl

/-- Case analysis of one `loginHandler` run: the credential stage fails; or connecting fails; or `Login` fails; or the team selector fails after the success line; or the run reaches the final unconditional save.  Each case records the collaborator outcomes and the exact result triple. -/
theorem loginHandler_shape (args : LoginArgs) (beh : Behavior) (w : World) :
    (∃ e w1 evs1,
      credentialStage args (loadedConfig beh.loadResult) w = (Except.error e, w1, evs1) ∧
      loginHandler args beh w = (some e, w1, evs1)) ∨
    (∃ cfg1 w1 evs1 e,
      credentialStage args (loadedConfig beh.loadResult) w = (Except.ok cfg1, w1, evs1) ∧
      beh.connectResult = Except.error e ∧
      loginHandler args beh w = (some e, w1, evs1 ++ [Event.connect])) ∨
    (∃ cfg1 w1 evs1 pd e,
      credentialStage args (loadedConfig beh.loadResult) w = (Except.ok cfg1, w1, evs1) ∧
      beh.connectResult = Except.ok pd ∧ (Login cfg1.apiKey pd).2 = some e ∧
      loginHandler args beh w = (some e, w1, evs1 ++ [Event.connect, Event.loginCall])) ∨
    (∃ cfg1 w1 evs1 pd e w2 evs3,
      credentialStage args (loadedConfig beh.loadResult) w = (Except.ok cfg1, w1, evs1) ∧
      beh.connectResult = Except.ok pd ∧ (Login cfg1.apiKey pd).2 = none ∧
      teamResolveStep beh cfg1 w1 = (Except.error e, w2, evs3) ∧
      loginHandler args beh w = (some e, w2,
        (evs1 ++ [Event.connect, Event.loginCall,
          Event.printSuccess (Login cfg1.apiKey pd).1]) ++ evs3)) ∨
    (∃ cfg1 w1 evs1 pd cfg2 w2 evs3,
      credentialStage args (loadedConfig beh.loadResult) w = (Except.ok cfg1, w1, evs1) ∧
      beh.connectResult = Except.ok pd ∧ (Login cfg1.apiKey pd).2 = none ∧
      teamResolveStep beh cfg1 w1 = (Except.ok cfg2, w2, evs3) ∧
      loginHandler args beh w = ((doSave w2).1, (doSave w2).2,
        (evs1 ++ [Event.connect, Event.loginCall,
          Event.printSuccess (Login cfg1.apiKey pd).1]) ++ evs3 ++ [Event.save cfg2])) := by
  simp only [loginHandler]
  split
  · rename_i e1 w1 evs1 heq1
    exact Or.inl ⟨e1, w1, evs1, heq1, rfl⟩
  · rename_i cfg1 w1 evs1 heq1
    split
    · rename_i e2 heq2
      exact Or.inr (Or.inl ⟨cfg1, w1, evs1, e2, heq1, heq2, rfl⟩)
    · rename_i pd heq2
      split
      · rename_i e3 heq3
        exact Or.inr (Or.inr (Or.inl ⟨cfg1, w1, evs1, pd, e3, heq1, heq2, heq3, rfl⟩))
      · rename_i heq3
        split
        · rename_i e4 w2 evs3 heq4
          exact Or.inr (Or.inr (Or.inr (Or.inl
            ⟨cfg1, w1, evs1, pd, e4, w2, evs3, heq1, heq2, heq3, heq4, rfl⟩)))
        · rename_i cfg2 w2 evs3 heq4
          refine Or.inr (Or.inr (Or.inr (Or.inr
            ⟨cfg1, w1, evs1, pd, cfg2, w2, evs3, heq1, heq2, heq3, heq4, ?_⟩)))
          cases hds : (doSave w2).1 <;> simp [hds]

/-- The Team Resolver preserves the teamID/teamName pair property when the selector result satisfies it. -/
theorem teamResolveStep_ok_paired {beh : Behavior} {cfg : Config} {w : World}
    {cfg' : Config} {w' : World} {evs : List Event}
    (h : teamResolveStep beh cfg w = (Except.ok cfg', w', evs))
    (hp : teamPaired cfg)
    (hsel : ∀ tid nm, beh.selectResult = Except.ok (tid, nm) → (tid = "" ↔ nm = "")) :
    teamPaired cfg' := by
  unfold teamResolveStep at h
  split at h
  · split at h
    · simp at h
    · rename_i tid nm heq
      simp only [Prod.mk.injEq, Except.ok.injEq] at h
      obtain ⟨h1, -, -⟩ := h
      subst h1
      have := hsel tid nm heq
      simpa [teamPaired] using this
  · simp only [Prod.mk.injEq, Except.ok.injEq] at h
    obtain ⟨h1, -, -⟩ := h
    subst h1
    exact hp

/-- The Team Resolver itself never calls `config.Save`. -/
theorem teamResolveStep_no_save (beh : Behavior) (cfg : Config) (w : World) :
    savedConfigs (teamResolveStep beh cfg w).2.2 = [] := by
  unfold teamResolveStep
  split
  · split <;> rfl
  · rfl

/-! ### The claims -/

/-- C1 counterexample: in the Scenario A run there are exactly two
persisted writes, but the first of them already carries
accessToken = "ghtoken" (the key-prompt step performs no save of its
own; the first save happens only after the token prompt), so the claim
that the first write carries accessToken = "" is false. -/
theorem c1_counterexample :
    (savedConfigs scenarioARun.2.2).length = 2 ∧
    (savedConfigs scenarioARun.2.2).head? =
      some { apiKey := "abc123\n", accessToken := "ghtoken", teamID := "", team := "" } ∧
    ¬ (savedConfigs scenarioARun.2.2).head?.map Config.accessToken = some "" := by
  refine ⟨rfl, rfl, ?_⟩
  intro h
  simp only [scenarioARun, scenarioABeh, runLogin] at h
  exact Option.noConfusion h (by intro h2; exact String.noConfusion h2 (by decide))

/-- C1 (amended): the Scenario A run performs exactly two persisted
writes; the first carries apiKey = "abc123\n" (untrimmed) and already
accessToken = "ghtoken" (trimmed), the second additionally carries the
selected team. -/
theorem c1_amended_two_writes :
    savedConfigs scenarioARun.2.2 =
      [{ apiKey := "abc123\n", accessToken := "ghtoken", teamID := "", team := "" },
       { apiKey := "abc123\n", accessToken := "ghtoken", teamID := "T1", team := "Team One" }] := rfl

/-- C2 counterexample: with a stored record whose apiKey is "key" and
whose accessToken is empty, and stdin yielding a blank line "\n", the
Credential Acquirer stage returns without an error yet the resulting
record still has accessToken = "" (the trailing newline is trimmed away
to the empty string), refuting the claim that a non-error return implies
both credentials are non-empty. -/
theorem c2_counterexample :
    (credentialStage { apiKey := "", accessToken := "" }
        { apiKey := "key", accessToken := "", teamID := "", team := "" }
        { stdin := [("\n", none)], saves := [] }).1 =
      Except.ok { apiKey := "key", accessToken := "", teamID := "", team := "" } ∧
    Config.accessToken { apiKey := "key", accessToken := "", teamID := "", team := "" } = "" :=
  ⟨rfl, rfl⟩

/-- Claim C2 (amended): when the Credential Acquirer stage returns without an error, the resulting record has a non-empty apiKey (a successful `ReadString` always returns a non-empty string since it includes the delimiter); the accessToken, however, may be empty - see the counterexample. -/
theorem c2_amended_key_nonempty (args : LoginArgs) (cfg : Config) (w : World) (c' : Config)
    (hg : GoodStdin w.stdin)
    (h : (credentialStage args cfg w).1 = Except.ok c') :
    c'.apiKey ≠ "" :=
  credentialStage_ok_key hg h

/-- Witness for C2 (amended) at a concrete run: empty stored key, stdin delivering two real lines. -/
theorem c2_amended_key_nonempty_witness :
    Config.apiKey (Config.mk "abc123\n" "ghtoken" "" "") ≠ "" :=
  c2_amended_key_nonempty { apiKey := "", accessToken := "" }
    (Config.mk "" "" "" "")
    { stdin := [("abc123\n", none), ("ghtoken\n", none)], saves := [] }
    (Config.mk "abc123\n" "ghtoken" "" "") (by simp only [GoodStdin]; decide) rfl

/-- C3 counterexample: a rate-limit rejection is delivered by the
PagerDuty client as a `pagerduty.APIError` with status code 429;
`errors.As` matches it even though it is not a 401, so `Login` rewrites
it into the "login failed ... Unauthorized" form instead of returning it
unchanged. -/
theorem c3_counterexample :
    Login "k" { getCurrentUser := Except.error (GoError.apiError 429 "rate limited") } =
      ("", some (GoError.errorf "login failed\n429 Unauthorized")) ∧
    ¬ (Login "k" { getCurrentUser := Except.error (GoError.apiError 429 "rate limited") }).2 =
        some (GoError.apiError 429 "rate limited") := by
  refine ⟨rfl, ?_⟩
  intro h
  rw [show (Login "k" { getCurrentUser := Except.error (GoError.apiError 429 "rate limited") }).2 =
      some (GoError.errorf "login failed\n429 Unauthorized") from rfl] at h
  exact Option.noConfusion h (fun h2 => GoError.noConfusion h2)

/-- C3 (amended): `Login` propagates unchanged (with an empty identity
name) exactly those errors that are not `pagerduty.APIError` values;
every `APIError`, regardless of its status code (including non-401 codes
such as 429), is rewritten into the "login failed\n<code> Unauthorized"
form. -/
theorem c3_amended (apiKey msg : String) (code : Nat) (detail : String) :
    Login apiKey { getCurrentUser := Except.error (GoError.errorf msg) } =
      ("", some (GoError.errorf msg)) ∧
    Login apiKey { getCurrentUser := Except.error (GoError.apiError code detail) } =
      ("", some (GoError.errorf ("login failed\n" ++ toString code ++ " Unauthorized"))) :=
  ⟨rfl, rfl⟩

/-- Claim C4 counterexample: a loaded record with teamID set and teamName empty is persisted unchanged by the final save, so the pair invariant does not hold for every loaded initial record as claimed. -/
theorem c4_counterexample :
    savedConfigs pairBreakRun.2.2 = [Config.mk "k" "t" "x" ""] ∧
    Config.teamID (Config.mk "k" "t" "x" "") ≠ "" ∧
    Config.team (Config.mk "k" "t" "x" "") = "" :=
  ⟨rfl, by decide, rfl⟩

/-- Claim C4 (amended): the bootstrapper preserves the teamID/teamName pair property - if the loaded record satisfies it and every successful selector result satisfies it, then every record passed to `config.Save` satisfies it.  The code does not enforce the property for arbitrary loaded records (see the counterexample). -/
theorem c4_amended_pair_preserved (args : LoginArgs) (beh : Behavior)
    (stdin : List (String × Option GoError)) (saves : List (Option GoError))
    (hload : teamPaired (loadedConfig beh.loadResult))
    (hsel : ∀ tid nm, beh.selectResult = Except.ok (tid, nm) → (tid = "" ↔ nm = "")) :
    ∀ c ∈ savedConfigs (runLogin args beh stdin saves).2.2, teamPaired c := by
  have hsh := loginHandler_shape args beh { stdin := stdin, saves := saves }
  rcases hsh with ⟨e1, w1, evs1, heq1, hres⟩ | ⟨cfg1, w1, evs1, e, heq1, hconn, hres⟩ |
    ⟨cfg1, w1, evs1, pd, e, heq1, hconn, hlog, hres⟩ |
    ⟨cfg1, w1, evs1, pd, e, w2, evs3, heq1, hconn, hlog, hres4, hres⟩ |
    ⟨cfg1, w1, evs1, pd, cfg2, w2, evs3, heq1, hconn, hlog, hres4, hres⟩
  all_goals
    simp only [runLogin]
    rw [hres]
    have hsvp : ∀ c ∈ savedConfigs evs1, teamPaired c := by
      intro c hc
      have h2 := credentialStage_saves_team args (loadedConfig beh.loadResult)
        { stdin := stdin, saves := saves } c (by rw [heq1]; exact hc)
      rw [teamPaired, h2.1, h2.2]
      exact hload
  · exact hsvp
  · intro c hc
    simp only [savedConfigs_append, savedConfigs_cons_connect, savedConfigs_nil,
      List.append_nil] at hc
    exact hsvp c hc
  · intro c hc
    simp only [savedConfigs_append, savedConfigs_cons_connect, savedConfigs_cons_loginCall,
      savedConfigs_nil, List.append_nil] at hc
    exact hsvp c hc
  · intro c hc
    have hns := teamResolveStep_no_save beh cfg1 w1
    rw [hres4] at hns
    simp only at hns
    simp only [savedConfigs_append, savedConfigs_cons_connect, savedConfigs_cons_loginCall,
      savedConfigs_cons_printSuccess, savedConfigs_nil, List.append_nil, hns] at hc
    exact hsvp c hc
  · intro c hc
    have hns := teamResolveStep_no_save beh cfg1 w1
    rw [hres4] at hns
    simp only at hns
    simp only [savedConfigs_append, savedConfigs_cons_connect, savedConfigs_cons_loginCall,
      savedConfigs_cons_printSuccess, savedConfigs_cons_save, savedConfigs_nil,
      List.append_nil, hns, List.mem_append, List.mem_singleton] at hc
    rcases hc with hc | hc
    · exact hsvp c hc
    · subst hc
      have hok := credentialStage_ok
        (show (credentialStage args (loadedConfig beh.loadResult)
          { stdin := stdin, saves := saves }).1 = Except.ok cfg1 by rw [heq1])
      have hp1 : teamPaired cfg1 := by
        rw [teamPaired, hok.1, hok.2]
        exact hload
      exact teamResolveStep_ok_paired hres4 hp1 hsel

/-- Witness for C4 (amended) at the Scenario A run: the final saved record keeps the pair property. -/
theorem c4_amended_pair_preserved_witness :
    teamPaired (Config.mk "abc123\n" "ghtoken" "T1" "Team One") := by
  have h := c4_amended_pair_preserved { apiKey := "", accessToken := "" } scenarioABeh
    [("abc123\n", none), ("ghtoken\n", none)] []
    (by simp [teamPaired, loadedConfig, scenarioABeh])
    (by
      intro tid nm hsel
      simp [scenarioABeh] at hsel
      rw [← hsel.1, ← hsel.2]
      decide)
  exact h (Config.mk "abc123\n" "ghtoken" "T1" "Team One") (by decide)

/-- C5: when `GetCurrentUser` fails with a `pagerduty.APIError` carrying
status code 401, `Login` returns an empty identity name together with an
error whose message contains both "401" and "Unauthorized"; the original
error detail is discarded (the result does not depend on `detail`). -/
theorem c5_auth_failure_mapping (apiKey detail : String) :
    Login apiKey { getCurrentUser := Except.error (GoError.apiError 401 detail) } =
      ("", some (GoError.errorf "login failed\n401 Unauthorized")) ∧
    strContains (GoError.message (GoError.errorf "login failed\n401 Unauthorized")) "401" = true ∧
    strContains (GoError.message (GoError.errorf "login failed\n401 Unauthorized")) "Unauthorized" = true :=
  ⟨rfl, by decide, by decide⟩

/-- Claim C6: with a non-empty --api-key override, the very first observable action of the run is a persisted write of the loaded record with its apiKey replaced by the override value; every prompt, remote call and team-resolution step comes after it in the trace. -/
theorem c6_override_precedence (args : LoginArgs) (beh : Behavior)
    (stdin : List (String × Option GoError)) (saves : List (Option GoError))
    (h : args.apiKey ≠ "") :
    ((runLogin args beh stdin saves).2.2).head? =
      some (Event.save { loadedConfig beh.loadResult with apiKey := args.apiKey }) := by
  obtain ⟨tl, htl⟩ := credentialStage_head args (loadedConfig beh.loadResult)
    { stdin := stdin, saves := saves } h
  simp only [runLogin, loginHandler]
  split
  · rename_i e1 w1 evs1 heq1
    rw [heq1] at htl
    simp only at htl
    simp [htl]
  · rename_i cfg1 w1 evs1 heq1
    rw [heq1] at htl
    simp only at htl
    split
    · simp [htl]
    · split
      · simp [htl]
      · split
        · simp [htl]
        · split <;> simp [htl]

/-- Witness for C6: overriding a stored key \"old\" with \"new\" makes the first event a save carrying \"new\". -/
theorem c6_override_precedence_witness :
    ((runLogin { apiKey := "new", accessToken := "" } overrideBeh [] []).2.2).head? =
      some (Event.save (Config.mk "new" "t" "x" "y")) :=
  c6_override_precedence { apiKey := "new", accessToken := "" } overrideBeh [] [] (by decide)

/-- C7: whenever `config.Load` fails, the bootstrapper behaves exactly
as if the load had returned a fresh record with all four fields empty:
the whole run is identical for every load error, so the load error is
never surfaced to the caller. -/
theorem c7_fresh_start (args : LoginArgs) (connect : Except GoError PagerDutyClient)
    (select : Except GoError (String × String))
    (stdin : List (String × Option GoError)) (saves : List (Option GoError)) (e : GoError) :
    runLogin args (Behavior.mk (Except.error e) connect select) stdin saves =
      runLogin args
        (Behavior.mk (Except.ok (Config.mk "" "" "" "")) connect select) stdin saves ∧
    loadedConfig (Except.error e) = Config.mk "" "" "" "" :=
  ⟨rfl, rfl⟩

/-- Claim C8: when the loaded record already has a non-empty teamID, the run never calls `teams.SelectTeam` and every record passed to `config.Save` carries the loaded teamID and team name unchanged. -/
theorem c8_idempotent_team (args : LoginArgs) (beh : Behavior)
    (stdin : List (String × Option GoError)) (saves : List (Option GoError))
    (h : (loadedConfig beh.loadResult).teamID ≠ "") :
    Event.selectTeamCall ∉ (runLogin args beh stdin saves).2.2 ∧
    ∀ c ∈ savedConfigs (runLogin args beh stdin saves).2.2,
      c.teamID = (loadedConfig beh.loadResult).teamID ∧
      c.team = (loadedConfig beh.loadResult).team := by
  have hsh := loginHandler_shape args beh { stdin := stdin, saves := saves }
  rcases hsh with ⟨e1, w1, evs1, heq1, hres⟩ | ⟨cfg1, w1, evs1, e, heq1, hconn, hres⟩ |
    ⟨cfg1, w1, evs1, pd, e, heq1, hconn, hlog, hres⟩ |
    ⟨cfg1, w1, evs1, pd, e, w2, evs3, heq1, hconn, hlog, hres4, hres⟩ |
    ⟨cfg1, w1, evs1, pd, cfg2, w2, evs3, heq1, hconn, hlog, hres4, hres⟩
  all_goals
    simp only [runLogin]
    rw [hres]
    have hnos : Event.selectTeamCall ∉ evs1 := by
      intro hmem
      exact credentialStage_no_select args (loadedConfig beh.loadResult)
        { stdin := stdin, saves := saves } (by rw [heq1]; exact hmem)
    have hsv : ∀ c ∈ savedConfigs evs1,
        c.teamID = (loadedConfig beh.loadResult).teamID ∧
        c.team = (loadedConfig beh.loadResult).team := by
      intro c hc
      exact credentialStage_saves_team args (loadedConfig beh.loadResult)
        { stdin := stdin, saves := saves } c (by rw [heq1]; exact hc)
  · exact ⟨hnos, hsv⟩
  · constructor
    · intro hmem
      simp at hmem
      exact hnos hmem
    · intro c hc
      simp only [savedConfigs_append, savedConfigs_cons_connect, savedConfigs_cons_loginCall,
        savedConfigs_cons_printSuccess, savedConfigs_nil, List.append_nil] at hc
      exact hsv c hc
  · constructor
    · intro hmem
      simp at hmem
      exact hnos hmem
    · intro c hc
      simp only [savedConfigs_append, savedConfigs_cons_connect, savedConfigs_cons_loginCall,
        savedConfigs_cons_printSuccess, savedConfigs_nil, List.append_nil] at hc
      exact hsv c hc
  · -- team already set: the resolver cannot have failed
    have hok := credentialStage_ok
      (show (credentialStage args (loadedConfig beh.loadResult)
        { stdin := stdin, saves := saves }).1 = Except.ok cfg1 by rw [heq1])
    have hteam : cfg1.teamID ≠ "" := by rw [hok.1]; exact h
    rw [teamResolveStep_skip beh cfg1 w1 hteam] at hres4
    simp at hres4
  · have hok := credentialStage_ok
      (show (credentialStage args (loadedConfig beh.loadResult)
        { stdin := stdin, saves := saves }).1 = Except.ok cfg1 by rw [heq1])
    have hteam : cfg1.teamID ≠ "" := by rw [hok.1]; exact h
    rw [teamResolveStep_skip beh cfg1 w1 hteam] at hres4
    simp only [Prod.mk.injEq, Except.ok.injEq] at hres4
    obtain ⟨h5a, h5b, h5c⟩ := hres4
    subst h5a
    subst h5b
    subst h5c
    constructor
    · intro hmem
      simp at hmem
      exact hnos hmem
    · intro c hc
      simp only [savedConfigs_append, savedConfigs_cons_connect, savedConfigs_cons_loginCall,
        savedConfigs_cons_printSuccess, savedConfigs_cons_save, savedConfigs_nil,
        List.append_nil, List.mem_append, List.mem_singleton] at hc
      rcases hc with hc | hc
      · exact hsv c hc
      · subst hc
        exact hok

/-- Witness for C8 at a fully-populated stored record. -/
theorem c8_idempotent_team_witness :
    Event.selectTeamCall ∉
      (runLogin { apiKey := "", accessToken := "" } overrideBeh [] []).2.2 :=
  (c8_idempotent_team { apiKey := "", accessToken := "" } overrideBeh [] [] (by decide)).1

/-- Claim C9: on every non-failing run the trace ends with the final unconditional save; and for a fully populated initial record (apiKey, accessToken, teamID all set) with no override flag, a non-failing run performs zero prompts, zero `SelectTeam` calls and exactly one save. -/
theorem c9_final_save (args : LoginArgs) (beh : Behavior)
    (stdin : List (String × Option GoError)) (saves : List (Option GoError)) :
    ((runLogin args beh stdin saves).1 = none →
      ∃ pre c, (runLogin args beh stdin saves).2.2 = pre ++ [Event.save c]) ∧
    (∀ c0, beh.loadResult = Except.ok c0 → args.apiKey = "" → c0.apiKey ≠ "" →
      c0.accessToken ≠ "" → c0.teamID ≠ "" →
      (runLogin args beh stdin saves).1 = none →
      promptCount (runLogin args beh stdin saves).2.2 = 0 ∧
      selectCount (runLogin args beh stdin saves).2.2 = 0 ∧
      saveCount (runLogin args beh stdin saves).2.2 = 1) := by
  have hsh := loginHandler_shape args beh { stdin := stdin, saves := saves }
  rcases hsh with ⟨e1, w1, evs1, heq1, hres⟩ | ⟨cfg1, w1, evs1, e, heq1, hconn, hres⟩ |
    ⟨cfg1, w1, evs1, pd, e, heq1, hconn, hlog, hres⟩ |
    ⟨cfg1, w1, evs1, pd, e, w2, evs3, heq1, hconn, hlog, hres4, hres⟩ |
    ⟨cfg1, w1, evs1, pd, cfg2, w2, evs3, heq1, hconn, hlog, hres4, hres⟩
  · constructor
    · intro hnone
      simp only [runLogin] at hnone
      rw [hres] at hnone
      simp at hnone
    · intro c0 hld hargs hkey htok hteam hnone
      simp only [runLogin] at hnone
      rw [hres] at hnone
      simp at hnone
  · constructor
    · intro hnone
      simp only [runLogin] at hnone
      rw [hres] at hnone
      simp at hnone
    · intro c0 hld hargs hkey htok hteam hnone
      simp only [runLogin] at hnone
      rw [hres] at hnone
      simp at hnone
  · constructor
    · intro hnone
      simp only [runLogin] at hnone
      rw [hres] at hnone
      simp at hnone
    · intro c0 hld hargs hkey htok hteam hnone
      simp only [runLogin] at hnone
      rw [hres] at hnone
      simp at hnone
  · constructor
    · intro hnone
      simp only [runLogin] at hnone
      rw [hres] at hnone
      simp at hnone
    · intro c0 hld hargs hkey htok hteam hnone
      simp only [runLogin] at hnone
      rw [hres] at hnone
      simp at hnone
  · constructor
    · intro hnone
      simp only [runLogin]
      rw [hres]
      exact ⟨(evs1 ++ [Event.connect, Event.loginCall,
        Event.printSuccess (Login cfg1.apiKey pd).1]) ++ evs3, cfg2, rfl⟩
    · intro c0 hld hargs hkey htok hteam hnone
      have hLc : loadedConfig beh.loadResult = c0 := by rw [hld]; rfl
      rw [hLc, credentialStage_skip args c0 { stdin := stdin, saves := saves }
        hargs hkey htok] at heq1
      simp only [Prod.mk.injEq, Except.ok.injEq] at heq1
      obtain ⟨h1, h2, h3⟩ := heq1
      subst h1
      subst h2
      subst h3
      rw [teamResolveStep_skip beh _ _ hteam] at hres4
      simp only [Prod.mk.injEq, Except.ok.injEq] at hres4
      obtain ⟨h4, h5, h6⟩ := hres4
      subst h4
      subst h5
      subst h6
      simp only [runLogin]
      rw [hres]
      simp [promptCount, selectCount, saveCount, Event.isPrompt, Event.isSelect, Event.isSave]

/-- Witness for C9 at a fully-populated stored record: the run ends in a save and performs 0 prompts, 0 selector calls, 1 save. -/
theorem c9_final_save_witness :
    (∃ pre c, (runLogin { apiKey := "", accessToken := "" } overrideBeh [] []).2.2 =
      pre ++ [Event.save c]) ∧
    promptCount (runLogin { apiKey := "", accessToken := "" } overrideBeh [] []).2.2 = 0 ∧
    selectCount (runLogin { apiKey := "", accessToken := "" } overrideBeh [] []).2.2 = 0 ∧
    saveCount (runLogin { apiKey := "", accessToken := "" } overrideBeh [] []).2.2 = 1 := by
  have h := c9_final_save { apiKey := "", accessToken := "" } overrideBeh [] []
  exact ⟨h.1 rfl,
    h.2 (Config.mk "old" "t" "x" "y") rfl rfl (by decide) (by decide) (by decide) rfl⟩

/-- Claim C10: whenever the success line is printed, the trace splits as pre ++ success-line :: post where pre contains no `SelectTeam` call, and on a successful run the final save lies in post; moreover there is a concrete run (team selector fails) in which the success line is printed and the bootstrap still fails. -/
theorem c10_success_line_order :
    (∀ args beh stdin saves u,
      Event.printSuccess u ∈ (runLogin args beh stdin saves).2.2 →
      ∃ pre post, (runLogin args beh stdin saves).2.2 = pre ++ Event.printSuccess u :: post ∧
        (∀ e ∈ pre, Event.isSelect e = false) ∧
        ((runLogin args beh stdin saves).1 = none →
          ∃ post2 c, post = post2 ++ [Event.save c])) ∧
    (Event.printSuccess "Jane" ∈ afterPrintFailRun.2.2 ∧
      afterPrintFailRun.1 = some (GoError.errorf "selector failed")) := by
  constructor
  · intro args beh stdin saves u hm
    have hsh := loginHandler_shape args beh { stdin := stdin, saves := saves }
    rcases hsh with ⟨e1, w1, evs1, heq1, hres⟩ | ⟨cfg1, w1, evs1, e, heq1, hconn, hres⟩ |
      ⟨cfg1, w1, evs1, pd, e, heq1, hconn, hlog, hres⟩ |
      ⟨cfg1, w1, evs1, pd, e, w2, evs3, heq1, hconn, hlog, hres4, hres⟩ |
      ⟨cfg1, w1, evs1, pd, cfg2, w2, evs3, heq1, hconn, hlog, hres4, hres⟩
    all_goals
      simp only [runLogin] at hm ⊢
      rw [hres] at hm ⊢
      have hnp : ∀ e2 ∈ evs1, Event.isPrint e2 = false := by
        intro e2 he2
        exact (credentialStage_events args (loadedConfig beh.loadResult)
          { stdin := stdin, saves := saves } e2 (by rw [heq1]; exact he2)).2.1
      have hnsel : ∀ e2 ∈ evs1, Event.isSelect e2 = false := by
        intro e2 he2
        exact (credentialStage_events args (loadedConfig beh.loadResult)
          { stdin := stdin, saves := saves } e2 (by rw [heq1]; exact he2)).1
    · exact absurd (hnp _ hm) (by simp [Event.isPrint])
    · rcases List.mem_append.1 hm with hm2 | hm2
      · exact absurd (hnp _ hm2) (by simp [Event.isPrint])
      · simp at hm2
    · rcases List.mem_append.1 hm with hm2 | hm2
      · exact absurd (hnp _ hm2) (by simp [Event.isPrint])
      · simp at hm2
    · have hsel3 : ∀ e2 ∈ evs3, e2 = Event.selectTeamCall := by
        intro e2 he2
        exact teamResolveStep_events beh cfg1 w1 e2
          (by rw [hres4]; exact he2)
      have hu : u = (Login cfg1.apiKey pd).1 := by
        rcases List.mem_append.1 hm with hm2 | hm2
        · rcases List.mem_append.1 hm2 with hm3 | hm3
          · exact absurd (hnp _ hm3) (by simp [Event.isPrint])
          · simpa using hm3
        · have := hsel3 _ hm2
          simp at this
      subst hu
      refine ⟨evs1 ++ [Event.connect, Event.loginCall], evs3, by simp, ?_, ?_⟩
      · intro e2 he2
        rcases List.mem_append.1 he2 with hm3 | hm3
        · exact hnsel _ hm3
        · simp only [List.mem_cons, List.not_mem_nil, or_false] at hm3
          rcases hm3 with h3 | h3 <;> (rw [h3]; rfl)
      · intro hnone
        simp at hnone
    · have hsel3 : ∀ e2 ∈ evs3, e2 = Event.selectTeamCall := by
        intro e2 he2
        exact teamResolveStep_events beh cfg1 w1 e2
          (by rw [hres4]; exact he2)
      have hu : u = (Login cfg1.apiKey pd).1 := by
        rcases List.mem_append.1 hm with hm2 | hm2
        · rcases List.mem_append.1 hm2 with hm3 | hm3
          · rcases List.mem_append.1 hm3 with hm4 | hm4
            · exact absurd (hnp _ hm4) (by simp [Event.isPrint])
            · simpa using hm4
          · have := hsel3 _ hm3
            simp at this
        · simp at hm2
      subst hu
      refine ⟨evs1 ++ [Event.connect, Event.loginCall], evs3 ++ [Event.save cfg2],
        by simp, ?_, ?_⟩
      · intro e2 he2
        rcases List.mem_append.1 he2 with hm3 | hm3
        · exact hnsel _ hm3
        · simp only [List.mem_cons, List.not_mem_nil, or_false] at hm3
          rcases hm3 with h3 | h3 <;> (rw [h3]; rfl)
      · intro hnone
        exact ⟨evs3, cfg2, rfl⟩
  · constructor
    · decide
    · rfl

/-- Witness for C10 applying the ordering part at the concrete failing run. -/
theorem c10_success_line_order_witness :
    ∃ pre post, afterPrintFailRun.2.2 = pre ++ Event.printSuccess "Jane" :: post ∧
      (∀ e ∈ pre, Event.isSelect e = false) ∧
      (afterPrintFailRun.1 = none → ∃ post2 c, post = post2 ++ [Event.save c]) := by
  have h := c10_success_line_order.1 { apiKey := "", accessToken := "" }
    { loadResult := Except.ok { apiKey := "k", accessToken := "t", teamID := "", team := "" },
      connectResult := Except.ok { getCurrentUser := Except.ok { name := "Jane" } },
      selectResult := Except.error (GoError.errorf "selector failed") } [] [] "Jane" (by decide)
  exact h

end Kite
